import Mathlib

/-!
Verification of the `alb` package (a Go adapter running `http.Handler` code
inside an AWS Lambda invoked behind an Application Load Balancer).

Go byte strings are modelled as `List Nat` (one entry per byte); Go maps are
modelled as association lists whose order stands in for the map's
(unspecified) iteration order; `nil`-able maps are modelled as `Option`;
fallible operations return `Except`/`Option`.

The development embeds, besides the package's own code (`alb.go`), the parts
of the Go standard library the package calls: `encoding/base64`
(`StdEncoding`), `unicode/utf8.Valid`, `net/textproto.CanonicalMIMEHeaderKey`,
`net/url.Parse` / `URL.Query`, and the `net/http/httptest.ResponseRecorder`.
-/

namespace Alb

/-- A Go string / byte slice: a list of byte values. -/
abbrev GoStr := List Nat

/-- Convert a Lean string literal to its sequence of UTF-8 bytes, the way a Go
source literal denotes a byte string. -/
def utf8EncodeChar (c : Nat) : List Nat :=
  if c < 0x80 then [c]
  else if c < 0x800 then [0xC0 + c / 64, 0x80 + c % 64]
  else if c < 0x10000 then [0xE0 + c / 4096, 0x80 + (c / 64) % 64, 0x80 + c % 64]
  else [0xF0 + c / 262144, 0x80 + (c / 4096) % 64, 0x80 + (c / 64) % 64, 0x80 + c % 64]

/-- The UTF-8 bytes of a Lean string (Go string literals are UTF-8). -/
def s2b (s : String) : GoStr :=
  (s.data.map Char.toNat).foldr (fun c acc => utf8EncodeChar c ++ acc) []

/-- `strings.Contains(s, string(b))` for a single byte. -/
def containsB (s : GoStr) (b : Nat) : Bool :=
  s.any (fun c => c == b)

/-- `strings.HasPrefix`. -/
def startsW : GoStr → GoStr → Bool
  | _, [] => true
  | [], _ :: _ => false
  | c :: s, p :: ps => c == p && startsW s ps

/-- `strings.HasSuffix s suf` for a one-byte suffix. -/
def endsWithB (s : GoStr) (b : Nat) : Bool :=
  match s.getLast? with
  | some c => c == b
  | none => false

/-- `strings.Cut(s, string(sep))` for a one-byte separator: returns
(before, after, found); `after = []` when the separator is absent. -/
def goCut (s : GoStr) (sep : Nat) : GoStr × GoStr × Bool :=
  match s with
  | [] => ([], [], false)
  | c :: rest =>
    if c = sep then ([], rest, true)
    else
      let r := goCut rest sep
      (c :: r.1, r.2.1, r.2.2)

theorem goCut_length_lt (s : GoStr) (sep : Nat) (h : s ≠ []) :
    (goCut s sep).2.1.length < s.length := by
  induction s with
  | nil => exact absurd rfl h
  | cons c rest ih =>
    by_cases hc : c = sep
    · simp [goCut, hc]
    · simp only [goCut, if_neg hc]
      rcases rest with _ | ⟨d, tl⟩
      · simp [goCut]
      · have h2 := ih (by simp)
        simp only [List.length_cons] at h2 ⊢
        omega

/-- `strings.Index(s, string(b))` for one byte. -/
def indexOfB (s : GoStr) (b : Nat) : Option Nat :=
  match s with
  | [] => none
  | c :: rest =>
    if c = b then some 0
    else (indexOfB rest b).map (· + 1)

/-- `strings.LastIndex(s, string(b))` for one byte. -/
def lastIndexOfB (s : GoStr) (b : Nat) : Option Nat :=
  match s with
  | [] => none
  | c :: rest =>
    match lastIndexOfB rest b with
    | some i => some (i + 1)
    | none => if c = b then some 0 else none

/-- `strings.Index(s, sub)` (first index of a substring). -/
def indexOfSub (s sub : GoStr) : Option Nat :=
  if startsW s sub then some 0
  else
    match s with
    | [] => none
    | _ :: rest => (indexOfSub rest sub).map (· + 1)

/-! ## encoding/base64 (StdEncoding) -/

/-- Value of one standard-alphabet base64 character, `none` for characters
outside the alphabet (including the padding character). -/
def b64val (c : Nat) : Option Nat :=
  if 65 ≤ c ∧ c ≤ 90 then some (c - 65)
  else if 97 ≤ c ∧ c ≤ 122 then some (c - 97 + 26)
  else if 48 ≤ c ∧ c ≤ 57 then some (c - 48 + 52)
  else if c = 43 then some 62
  else if c = 47 then some 63
  else none

/-- One standard-alphabet base64 character for a 6-bit value. -/
def b64char (n : Nat) : Nat :=
  if n < 26 then 65 + n
  else if n < 52 then 97 + (n - 26)
  else if n < 62 then 48 + (n - 52)
  else if n = 62 then 43
  else 47

/-- `base64.StdEncoding.EncodeToString`. -/
def base64Encode : GoStr → GoStr
  | b1 :: b2 :: b3 :: rest =>
    b64char (b1 / 4) :: b64char (b1 % 4 * 16 + b2 / 16) ::
      b64char (b2 % 16 * 4 + b3 / 64) :: b64char (b3 % 64) :: base64Encode rest
  | [b1, b2] =>
    [b64char (b1 / 4), b64char (b1 % 4 * 16 + b2 / 16), b64char (b2 % 16 * 4), 61]
  | [b1] => [b64char (b1 / 4), b64char (b1 % 4 * 16), 61, 61]
  | [] => []

/-- Quantum-by-quantum decoding of newline-free base64 input: four characters
per quantum, padding (`=`, byte 61) allowed only at positions 2/3 of the final
quantum, leftover characters rejected — the behavior of
`base64.StdEncoding.Decode` after newline skipping. -/
def decodeB64Groups : GoStr → Option GoStr
  | [] => some []
  | c1 :: c2 :: c3 :: c4 :: rest =>
    match b64val c1, b64val c2 with
    | some v1, some v2 =>
      if c3 = 61 then
        if c4 = 61 ∧ rest = [] then some [v1 * 4 + v2 / 16] else none
      else
        match b64val c3 with
        | some v3 =>
          if c4 = 61 then
            if rest = [] then some [v1 * 4 + v2 / 16, v2 % 16 * 16 + v3 / 4] else none
          else
            match b64val c4 with
            | some v4 =>
              (decodeB64Groups rest).map
                (fun tl => (v1 * 4 + v2 / 16) :: (v2 % 16 * 16 + v3 / 4) :: (v3 % 4 * 64 + v4) :: tl)
            | none => none
        | none => none
    | _, _ => none
  | _ => none

/-- `base64.StdEncoding.DecodeString`: carriage returns and newlines are
skipped anywhere, everything else is decoded in quanta of four. -/
def decodeBase64 (s : GoStr) : Option GoStr :=
  decodeB64Groups (s.filter (fun c => !(c == 10 || c == 13)))

/-! ## unicode/utf8.Valid -/

/-- A UTF-8 continuation byte (0x80–0xBF). -/
def contB (b : Nat) : Bool := 128 ≤ b ∧ b ≤ 191

/-- `utf8.Valid`: the bytes form well-formed UTF-8 (no overlong encodings, no
surrogates, nothing above U+10FFFF) — transcribing Go's accept-range table. -/
def utf8Valid : GoStr → Bool
  | [] => true
  | b :: rest =>
    if b ≤ 127 then utf8Valid rest
    else if 194 ≤ b ∧ b ≤ 223 then
      match rest with
      | c :: r => contB c && utf8Valid r
      | [] => false
    else if b = 224 then
      match rest with
      | c :: d :: r => (decide (160 ≤ c ∧ c ≤ 191)) && contB d && utf8Valid r
      | _ => false
    else if 225 ≤ b ∧ b ≤ 236 then
      match rest with
      | c :: d :: r => contB c && contB d && utf8Valid r
      | _ => false
    else if b = 237 then
      match rest with
      | c :: d :: r => (decide (128 ≤ c ∧ c ≤ 159)) && contB d && utf8Valid r
      | _ => false
    else if 238 ≤ b ∧ b ≤ 239 then
      match rest with
      | c :: d :: r => contB c && contB d && utf8Valid r
      | _ => false
    else if b = 240 then
      match rest with
      | c :: d :: e :: r => (decide (144 ≤ c ∧ c ≤ 191)) && contB d && contB e && utf8Valid r
      | _ => false
    else if 241 ≤ b ∧ b ≤ 243 then
      match rest with
      | c :: d :: e :: r => contB c && contB d && contB e && utf8Valid r
      | _ => false
    else if b = 244 then
      match rest with
      | c :: d :: e :: r => (decide (128 ≤ c ∧ c ≤ 143)) && contB d && contB e && utf8Valid r
      | _ => false
    else false

/-! ## net/textproto header-key canonicalization -/

/-- `net/textproto`'s `isTokenTable`: the bytes legal in a MIME header key. -/
def validHeaderFieldByte (b : Nat) : Bool :=
  (48 ≤ b ∧ b ≤ 57) ∨ (65 ≤ b ∧ b ≤ 90) ∨ (97 ≤ b ∧ b ≤ 122) ∨
    b = 33 ∨ b = 35 ∨ b = 36 ∨ b = 37 ∨ b = 38 ∨ b = 39 ∨ b = 42 ∨ b = 43 ∨
    b = 45 ∨ b = 46 ∨ b = 94 ∨ b = 95 ∨ b = 96 ∨ b = 124 ∨ b = 126

/-- ASCII uppercase of one byte. -/
def toUpperB (b : Nat) : Nat := if 97 ≤ b ∧ b ≤ 122 then b - 32 else b

/-- ASCII lowercase of one byte. -/
def toLowerB (b : Nat) : Nat := if 65 ≤ b ∧ b ≤ 90 then b + 32 else b

/-- The canonicalizing pass of `canonicalMIMEHeaderKey`: uppercase the first
byte and every byte following a hyphen, lowercase the rest. -/
def canonLoop (upper : Bool) : GoStr → GoStr
  | [] => []
  | c :: rest =>
    let c' := if upper then toUpperB c else toLowerB c
    c' :: canonLoop (c' = 45) rest

/-- `textproto.CanonicalMIMEHeaderKey`: keys containing a byte that is not a
legal header-field byte are returned unchanged; legal keys are canonicalized. -/
def canonicalMIMEHeaderKey (s : GoStr) : GoStr :=
  if s.all validHeaderFieldByte then canonLoop true s else s

/-! ## net/url -/

/-- The escaping contexts of `net/url` (its `encoding` enumeration). -/
inductive UrlEnc
  | path
  | pathSegment
  | host
  | zone
  | userPassword
  | queryComponent
  | fragment
deriving DecidableEq

/-- ASCII alphanumeric byte. -/
def isAlphaNumB (b : Nat) : Bool :=
  (97 ≤ b ∧ b ≤ 122) ∨ (65 ≤ b ∧ b ≤ 90) ∨ (48 ≤ b ∧ b ≤ 57)

/-- `net/url.shouldEscape`. -/
def shouldEscape (c : Nat) (mode : UrlEnc) : Bool :=
  if isAlphaNumB c then false
  else if (mode = .host ∨ mode = .zone) ∧
      (c = 33 ∨ c = 36 ∨ c = 38 ∨ c = 39 ∨ c = 40 ∨ c = 41 ∨ c = 42 ∨ c = 43 ∨
        c = 44 ∨ c = 59 ∨ c = 61 ∨ c = 58 ∨ c = 91 ∨ c = 93 ∨ c = 60 ∨ c = 62 ∨ c = 34) then
    false
  else if c = 45 ∨ c = 95 ∨ c = 46 ∨ c = 126 then false
  else if c = 36 ∨ c = 38 ∨ c = 43 ∨ c = 44 ∨ c = 47 ∨ c = 58 ∨ c = 59 ∨
      c = 61 ∨ c = 63 ∨ c = 64 then
    match mode with
    | .path => c = 63
    | .pathSegment => c = 47 ∨ c = 59 ∨ c = 44 ∨ c = 63
    | .userPassword => c = 64 ∨ c = 47 ∨ c = 63 ∨ c = 58
    | .queryComponent => true
    | .fragment => false
    | _ => true
  else if mode = .fragment ∧ (c = 33 ∨ c = 40 ∨ c = 41 ∨ c = 42) then false
  else true

/-- Is the byte an ASCII hex digit (`net/url.ishex`)? -/
def ishex (b : Nat) : Bool :=
  (48 ≤ b ∧ b ≤ 57) ∨ (97 ≤ b ∧ b ≤ 102) ∨ (65 ≤ b ∧ b ≤ 70)

/-- Hex value of one ASCII hex digit (`net/url.unhex`). -/
def unhex (b : Nat) : Nat :=
  if 48 ≤ b ∧ b ≤ 57 then b - 48
  else if 97 ≤ b ∧ b ≤ 102 then b - 97 + 10
  else if 65 ≤ b ∧ b ≤ 70 then b - 65 + 10
  else 0

/-- Upper-case hex digit of a value below 16 (`net/url`'s `upperhex` table). -/
def hexDigitU (n : Nat) : Nat := if n < 10 then 48 + n else 65 + (n - 10)

/-- `net/url.unescape`: undo percent-encoding, turning `+` into a space in the
query-component context and enforcing the host/zone byte restrictions. -/
def unescape : GoStr → UrlEnc → Except GoStr GoStr
  | [], _ => .ok []
  | 37 :: rest, mode =>
    match rest with
    | a :: b :: rest2 =>
      if ishex a ∧ ishex b then
        if mode = .host ∧ unhex a < 8 ∧ ¬(a = 50 ∧ b = 53) then
          .error (s2b "invalid URL escape")
        else if mode = .zone ∧
            ¬(a = 50 ∧ b = 53) ∧ unhex a * 16 + unhex b ≠ 32 ∧
            shouldEscape (unhex a * 16 + unhex b) .host then
          .error (s2b "invalid host")
        else
          (unescape rest2 mode).map (fun r => (unhex a * 16 + unhex b) :: r)
      else .error (s2b "invalid URL escape")
    | _ => .error (s2b "invalid URL escape")
  | 43 :: rest, mode =>
    (unescape rest mode).map
      (fun r => (if mode = .queryComponent then 32 else 43) :: r)
  | c :: rest, mode =>
    if (mode = .host ∨ mode = .zone) ∧ c < 128 ∧ shouldEscape c mode then
      .error (s2b "invalid character in host name")
    else (unescape rest mode).map (fun r => c :: r)

/-- `net/url.escape`: percent-encode the bytes that need escaping in the given
context, using `+` for a space in the query-component context. -/
def escapeGo : GoStr → UrlEnc → GoStr
  | [], _ => []
  | c :: rest, mode =>
    if shouldEscape c mode then
      if c = 32 ∧ mode = .queryComponent then 43 :: escapeGo rest mode
      else 37 :: hexDigitU (c / 16) :: hexDigitU (c % 16) :: escapeGo rest mode
    else c :: escapeGo rest mode

/-- The scanning loop of `net/url.getScheme`; `seen` holds the bytes already
scanned, so the original string is `seen ++` the remaining bytes. -/
def getSchemeLoop (seen : GoStr) : GoStr → Except GoStr (GoStr × GoStr)
  | [] => .ok ([], seen)
  | c :: rest =>
    if (97 ≤ c ∧ c ≤ 122) ∨ (65 ≤ c ∧ c ≤ 90) then
      getSchemeLoop (seen ++ [c]) rest
    else if (48 ≤ c ∧ c ≤ 57) ∨ c = 43 ∨ c = 45 ∨ c = 46 then
      if seen = [] then .ok ([], c :: rest)
      else getSchemeLoop (seen ++ [c]) rest
    else if c = 58 then
      if seen = [] then .error (s2b "missing protocol scheme")
      else .ok (seen, rest)
    else .ok ([], seen ++ c :: rest)

/-- `net/url.getScheme`: split a leading `scheme:` off a raw URL. -/
def getScheme (s : GoStr) : Except GoStr (GoStr × GoStr) :=
  getSchemeLoop [] s

/-- `net/url.stringContainsCTLByte`. -/
def containsCTLByte (s : GoStr) : Bool :=
  s.any (fun b => b < 32 ∨ b = 127)

/-- `net/url.validOptionalPort`. -/
def validOptionalPort (port : GoStr) : Bool :=
  match port with
  | [] => true
  | c :: digits => c = 58 && digits.all (fun b => 48 ≤ b ∧ b ≤ 57)

/-- `net/url.validUserinfo`. -/
def validUserinfo (s : GoStr) : Bool :=
  s.all fun b =>
    (65 ≤ b ∧ b ≤ 90) ∨ (97 ≤ b ∧ b ≤ 122) ∨ (48 ≤ b ∧ b ≤ 57) ∨
      b = 45 ∨ b = 46 ∨ b = 95 ∨ b = 58 ∨ b = 126 ∨ b = 33 ∨ b = 36 ∨
      b = 38 ∨ b = 39 ∨ b = 40 ∨ b = 41 ∨ b = 42 ∨ b = 43 ∨ b = 44 ∨
      b = 59 ∨ b = 61 ∨ b = 37 ∨ b = 64

/-- The user-information component of a parsed URL: a username and an optional
password (`net/url.Userinfo`). -/
structure UrlUser where
  username : GoStr
  password : Option GoStr
deriving DecidableEq

/-- `net/url.URL`, restricted to the fields `Parse` can populate. -/
structure URL where
  Scheme : GoStr := []
  Opaque : GoStr := []
  User : Option UrlUser := none
  Host : GoStr := []
  Path : GoStr := []
  RawPath : GoStr := []
  OmitHost : Bool := false
  ForceQuery : Bool := false
  RawQuery : GoStr := []
  Fragment : GoStr := []
  RawFragment : GoStr := []
deriving DecidableEq

/-- `net/url.parseHost`. -/
def parseHost (host : GoStr) : Except GoStr GoStr :=
  if startsW host [91] then
    match lastIndexOfB host 93 with
    | none => .error (s2b "missing right bracket in host")
    | some i =>
      let colonPort := host.drop (i + 1)
      if ¬ validOptionalPort colonPort then .error (s2b "invalid port after host")
      else
        match indexOfSub (host.take i) (s2b "%25") with
        | some zone =>
          match unescape (host.take zone) .host with
          | .error e => .error e
          | .ok host1 =>
            match unescape ((host.take i).drop zone) .zone with
            | .error e => .error e
            | .ok host2 =>
              match unescape (host.drop i) .host with
              | .error e => .error e
              | .ok host3 => .ok (host1 ++ host2 ++ host3)
        | none => unescape host .host
  else
    match lastIndexOfB host 58 with
    | some i =>
      let colonPort := host.drop i
      if ¬ validOptionalPort colonPort then .error (s2b "invalid port after host")
      else unescape host .host
    | none => unescape host .host

/-- `net/url.parseAuthority`. -/
def parseAuthority (authority : GoStr) : Except GoStr (Option UrlUser × GoStr) :=
  match lastIndexOfB authority 64 with
  | none =>
    match parseHost authority with
    | .error e => .error e
    | .ok host => .ok (none, host)
  | some i =>
    match parseHost (authority.drop (i + 1)) with
    | .error e => .error e
    | .ok host =>
      let userinfo := authority.take i
      if ¬ validUserinfo userinfo then .error (s2b "net/url: invalid userinfo")
      else if ¬ containsB userinfo 58 then
        match unescape userinfo .userPassword with
        | .error e => .error e
        | .ok u => .ok (some ⟨u, none⟩, host)
      else
        let cut := goCut userinfo 58
        match unescape cut.1 .userPassword with
        | .error e => .error e
        | .ok username =>
          match unescape cut.2.1 .userPassword with
          | .error e => .error e
          | .ok password => .ok (some ⟨username, some password⟩, host)

/-- `URL.setPath`: store the decoded path, remembering the raw form only when
it differs from the re-encoding of the decoded one. -/
def setPath (u : URL) (p : GoStr) : Except GoStr URL :=
  match unescape p .path with
  | .error e => .error e
  | .ok path =>
    if p = escapeGo path .path then .ok { u with Path := path, RawPath := [] }
    else .ok { u with Path := path, RawPath := p }

/-- `URL.setFragment`. -/
def setFragment (u : URL) (f : GoStr) : Except GoStr URL :=
  match unescape f .fragment with
  | .error e => .error e
  | .ok frag =>
    if f = escapeGo frag .fragment then .ok { u with Fragment := frag, RawFragment := [] }
    else .ok { u with Fragment := frag, RawFragment := f }

/-- The body of `net/url.parse` (the fragment-free part of parsing); the
package only ever reaches it with `viaRequest = false`. -/
def urlParseInner (rawURL : GoStr) (viaRequest : Bool) : Except GoStr URL :=
  if containsCTLByte rawURL then .error (s2b "net/url: invalid control character in URL")
  else if rawURL = [] ∧ viaRequest then .error (s2b "empty url")
  else if rawURL = [42] then .ok { Path := [42] }
  else
    match getScheme rawURL with
    | .error e => .error e
    | .ok (scheme0, rest0) =>
      let scheme := scheme0.map toLowerB
      let step :=
        if endsWithB rest0 63 ∧ ¬ containsB rest0.dropLast 63 then
          (true, rest0.dropLast, ([] : GoStr))
        else
          let cut := goCut rest0 63
          (false, cut.1, cut.2.1)
      let forceQuery := step.1
      let rest1 := step.2.1
      let rawQuery := step.2.2
      if ¬ startsW rest1 [47] ∧ scheme ≠ [] then
        .ok { Scheme := scheme, Opaque := rest1, ForceQuery := forceQuery,
              RawQuery := rawQuery }
      else if ¬ startsW rest1 [47] ∧ viaRequest then
        .error (s2b "invalid URI for request")
      else if ¬ startsW rest1 [47] ∧ containsB (goCut rest1 47).1 58 then
        .error (s2b "first path segment in URL cannot contain colon")
      else
        if (scheme ≠ [] ∨ (¬ viaRequest ∧ ¬ startsW rest1 [47, 47, 47])) ∧
            startsW rest1 [47, 47] then
          let authorityRest := rest1.drop 2
          let split :=
            match indexOfB authorityRest 47 with
            | some i => (authorityRest.take i, authorityRest.drop i)
            | none => (authorityRest, ([] : GoStr))
          match parseAuthority split.1 with
          | .error e => .error e
          | .ok (user, host) =>
            setPath { Scheme := scheme, User := user, Host := host,
                      ForceQuery := forceQuery, RawQuery := rawQuery } split.2
        else
          let omitHost := scheme ≠ [] ∧ startsW rest1 [47]
          setPath { Scheme := scheme, OmitHost := omitHost, ForceQuery := forceQuery,
                    RawQuery := rawQuery } rest1

/-- `net/url.Parse`: cut the fragment off at the first `#`, parse the rest,
then decode the fragment. -/
def urlParse (rawURL : GoStr) : Except GoStr URL :=
  let cut := goCut rawURL 35
  match urlParseInner cut.1 false with
  | .error e => .error e
  | .ok u => if cut.2.1 = [] then .ok u else setFragment u cut.2.1

/-! ### url.Values and query parsing -/

/-- Append one value under a key into an association-list rendering of
`url.Values` (`m[key] = append(m[key], value)`); a fresh key goes to the end. -/
def appendG (m : List (GoStr × List GoStr)) (k v : GoStr) : List (GoStr × List GoStr) :=
  match m with
  | [] => [(k, [v])]
  | (k0, vs) :: rest =>
    if k0 = k then (k0, vs ++ [v]) :: rest else (k0, vs) :: appendG rest k v

/-- The loop of `net/url.parseQuery`: split on `&`, reject segments holding a
semicolon, skip empty segments and segments that fail unescaping, cut each
survivor at the first `=` and decode both halves. -/
def parseQueryLoop (m : List (GoStr × List GoStr)) (query : GoStr) :
    List (GoStr × List GoStr) :=
  if hq : query = [] then m
  else
    let cut := goCut query 38
    have hlt : cut.2.1.length < query.length := by
      have := goCut_length_lt query 38 hq
      exact this
    if containsB cut.1 59 then parseQueryLoop m cut.2.1
    else if cut.1 = [] then parseQueryLoop m cut.2.1
    else
      let kv := goCut cut.1 61
      match unescape kv.1 .queryComponent with
      | .error _ => parseQueryLoop m cut.2.1
      | .ok key =>
        match unescape kv.2.1 .queryComponent with
        | .error _ => parseQueryLoop m cut.2.1
        | .ok value => parseQueryLoop (appendG m key value) cut.2.1
termination_by query.length

/-- `URL.Query()`: parse the raw query, ignoring any parse error. -/
def parseQueryGo (query : GoStr) : List (GoStr × List GoStr) :=
  parseQueryLoop [] query

/-! ## net/http bits used by the package -/

/-- `net/http.StatusText`. -/
def statusText (code : Nat) : GoStr :=
  if code = 100 then s2b "Continue"
  else if code = 101 then s2b "Switching Protocols"
  else if code = 102 then s2b "Processing"
  else if code = 103 then s2b "Early Hints"
  else if code = 200 then s2b "OK"
  else if code = 201 then s2b "Created"
  else if code = 202 then s2b "Accepted"
  else if code = 203 then s2b "Non-Authoritative Information"
  else if code = 204 then s2b "No Content"
  else if code = 205 then s2b "Reset Content"
  else if code = 206 then s2b "Partial Content"
  else if code = 207 then s2b "Multi-Status"
  else if code = 208 then s2b "Already Reported"
  else if code = 226 then s2b "IM Used"
  else if code = 300 then s2b "Multiple Choices"
  else if code = 301 then s2b "Moved Permanently"
  else if code = 302 then s2b "Found"
  else if code = 303 then s2b "See Other"
  else if code = 304 then s2b "Not Modified"
  else if code = 305 then s2b "Use Proxy"
  else if code = 307 then s2b "Temporary Redirect"
  else if code = 308 then s2b "Permanent Redirect"
  else if code = 400 then s2b "Bad Request"
  else if code = 401 then s2b "Unauthorized"
  else if code = 402 then s2b "Payment Required"
  else if code = 403 then s2b "Forbidden"
  else if code = 404 then s2b "Not Found"
  else if code = 405 then s2b "Method Not Allowed"
  else if code = 406 then s2b "Not Acceptable"
  else if code = 407 then s2b "Proxy Authentication Required"
  else if code = 408 then s2b "Request Timeout"
  else if code = 409 then s2b "Conflict"
  else if code = 410 then s2b "Gone"
  else if code = 411 then s2b "Length Required"
  else if code = 412 then s2b "Precondition Failed"
  else if code = 413 then s2b "Request Entity Too Large"
  else if code = 414 then s2b "Request URI Too Long"
  else if code = 415 then s2b "Unsupported Media Type"
  else if code = 416 then s2b "Requested Range Not Satisfiable"
  else if code = 417 then s2b "Expectation Failed"
  else if code = 418 then s2b "I\x27m a teapot"
  else if code = 421 then s2b "Misdirected Request"
  else if code = 422 then s2b "Unprocessable Entity"
  else if code = 423 then s2b "Locked"
  else if code = 424 then s2b "Failed Dependency"
  else if code = 425 then s2b "Too Early"
  else if code = 426 then s2b "Upgrade Required"
  else if code = 428 then s2b "Precondition Required"
  else if code = 429 then s2b "Too Many Requests"
  else if code = 431 then s2b "Request Header Fields Too Large"
  else if code = 451 then s2b "Unavailable For Legal Reasons"
  else if code = 500 then s2b "Internal Server Error"
  else if code = 501 then s2b "Not Implemented"
  else if code = 502 then s2b "Bad Gateway"
  else if code = 503 then s2b "Service Unavailable"
  else if code = 504 then s2b "Gateway Timeout"
  else if code = 505 then s2b "HTTP Version Not Supported"
  else if code = 506 then s2b "Variant Also Negotiates"
  else if code = 507 then s2b "Insufficient Storage"
  else if code = 508 then s2b "Loop Detected"
  else if code = 510 then s2b "Not Extended"
  else if code = 511 then s2b "Network Authentication Required"
  else []

/-- ASCII decimal digits, with enough fuel for every digit. -/
def natToDecAux (fuel n : Nat) : GoStr :=
  match fuel with
  | 0 => []
  | fuel + 1 => if n < 10 then [48 + n] else natToDecAux fuel (n / 10) ++ [48 + n % 10]

/-- ASCII decimal digits of a natural number. -/
def natToDec (n : Nat) : GoStr :=
  natToDecAux (n + 1) n

/-- `fmt.Sprintf("%03d", n)`: decimal, zero-padded to width three. -/
def pad3 (n : Nat) : GoStr :=
  if n < 10 then [48, 48, 48 + n]
  else if n < 100 then [48, 48 + n / 10, 48 + n % 10]
  else natToDec n

/-- An `http.Header` / `textproto.MIMEHeader`: keys to value lists, as an
association list standing in for the Go map. -/
abbrev Header := List (GoStr × List GoStr)

/-- Go map assignment `m[k] = v`: replace in place or append a fresh key. -/
def mapSet {α : Type} (m : List (GoStr × α)) (k : GoStr) (v : α) : List (GoStr × α) :=
  match m with
  | [] => [(k, v)]
  | (k0, v0) :: rest => if k0 = k then (k0, v) :: rest else (k0, v0) :: mapSet rest k v

/-- Go map lookup `m[k]`. -/
def mapLookup {α : Type} (m : List (GoStr × α)) (k : GoStr) : Option α :=
  match m with
  | [] => none
  | (k0, v) :: rest => if k0 = k then some v else mapLookup rest k

/-- Go map deletion `delete(m, k)`. -/
def mapDel {α : Type} (m : List (GoStr × α)) (k : GoStr) : List (GoStr × α) :=
  match m with
  | [] => []
  | (k0, v) :: rest => if k0 = k then rest else (k0, v) :: mapDel rest k

/-- `http.Header.Get` (via `textproto.MIMEHeader.Get`): canonicalize the key,
return the first value, or the empty string when absent or empty. -/
def headerGet (h : Header) (k : GoStr) : GoStr :=
  match mapLookup h (canonicalMIMEHeaderKey k) with
  | some (v :: _) => v
  | _ => []

/-- The reconstructed `http.Request`, restricted to the fields the package
sets (the invocation context attached via `WithContext` is not modelled). -/
structure HTTPRequest where
  ProtoMajor : Nat
  ProtoMinor : Nat
  Proto : GoStr
  Method : GoStr
  URL : URL
  Header : Header
  Host : GoStr
  Body : GoStr
  ContentLength : Nat
deriving DecidableEq

/-! ## The alb package: data model (src/alb.go) -/

/-- The inbound ALB event (`alb.request`); `none` models a `nil` map. -/
structure request where
  Method : GoStr := []
  Path : GoStr := []
  Query : Option (List (GoStr × GoStr)) := none
  MultiValueQuery : Option (List (GoStr × List GoStr)) := none
  Headers : Option (List (GoStr × GoStr)) := none
  MultiValueHeaders : Option (List (GoStr × List GoStr)) := none
  Body : GoStr := []
  BodyEncoded : Bool := false
deriving DecidableEq

/-- `request.HeadersProvided`: the multi-value map whenever it is non-nil
(even if empty), otherwise the single-value map with each value wrapped. -/
def request.HeadersProvided (r : request) : List (GoStr × List GoStr) :=
  match r.MultiValueHeaders with
  | none => (r.Headers.getD []).map (fun kv => (kv.1, [kv.2]))
  | some m => m

/-- `request.QueryProvided`: same precedence rule for query parameters. -/
def request.QueryProvided (r : request) : List (GoStr × List GoStr) :=
  match r.MultiValueQuery with
  | none => (r.Query.getD []).map (fun kv => (kv.1, [kv.2]))
  | some m => m

/-- The outbound reply (`alb.response`); `none` models a `nil` map. -/
structure response where
  StatusCode : Nat := 0
  Status : GoStr := []
  Headers : Option (List (GoStr × GoStr)) := none
  MultiValueHeaders : Option Header := none
  Body : GoStr := []
  BodyEncoded : Bool := false
deriving DecidableEq

/-- `strings.Join(vs, ",")`. -/
def joinComma (vs : List GoStr) : GoStr :=
  match vs with
  | [] => []
  | [v] => v
  | v :: rest => v ++ 44 :: joinComma rest

/-- `response.SetHeaders`: mirror the inbound header form — multi-value reply
headers verbatim when the event carried `multiValueHeaders`, otherwise
single-value headers with each value list joined by `,`. -/
def response.SetHeaders (r : response) (req : request) (resHeader : Header) :
    response :=
  match req.MultiValueHeaders with
  | none => { r with Headers := some (resHeader.map (fun kv => (kv.1, joinComma kv.2))) }
  | some _ => { r with MultiValueHeaders := some resHeader }

/-! ## buildURL -/

/-- The inner loop of `buildURL` over the values of one key: `i` is the count
of `key=value` pairs already written, an `&` precedes every pair but the
first. -/
def queryJoinVals (k : GoStr) : List GoStr → Nat → GoStr
  | [], _ => []
  | v :: vs, i =>
    (if i ≠ 0 then [38] else []) ++ k ++ 61 :: v ++ queryJoinVals k vs (i + 1)

/-- The full query-string loop of `buildURL`. -/
def queryJoinAux : List (GoStr × List GoStr) → Nat → GoStr
  | [], _ => []
  | (k, vs) :: rest, i => queryJoinVals k vs i ++ queryJoinAux rest (i + vs.length)

/-- The query string `buildURL` writes after the `?`. -/
def queryJoin (q : List (GoStr × List GoStr)) : GoStr :=
  queryJoinAux q 0

/-- `alb.buildURL`: parse the path alone when the query map has no keys,
otherwise parse `path ++ "?" ++` the joined `key=value` pairs. -/
def buildURL (path : GoStr) (query : List (GoStr × List GoStr)) : Except GoStr URL :=
  if query.length = 0 then urlParse path
  else urlParse (path ++ 63 :: queryJoin query)

/-! ## The recorder (net/http/httptest.ResponseRecorder) -/

/-- The state of an `httptest.ResponseRecorder`. -/
structure RecState where
  Code : Nat := 200
  HeaderMap : Header := []
  Body : GoStr := []
  wroteHeader : Bool := false
  snapHeader : Option Header := none
deriving DecidableEq

/-- `httptest.NewRecorder()`: code 200, empty header map, empty body. -/
def initRec : RecState := {}

/-- One action a handler can take against its `http.ResponseWriter` (or a
panic it raises); `setHeader`/`addHeader`/`delHeader` are the
`http.Header`-map methods, which canonicalize their key. -/
inductive WOp
  | setHeader (k v : GoStr)
  | addHeader (k v : GoStr)
  | delHeader (k : GoStr)
  | writeHeader (code : Nat)
  | writeBody (b : GoStr)
  | panicWith (msg : GoStr)
deriving DecidableEq

/-- A handler: given the reconstructed request, the sequence of writer
operations it performs. -/
def Handler := HTTPRequest → List WOp

/-- Run the handler's operations against the recorder.  `writeHeader` is a
no-op once the header was written, validates the code, and snapshots the
header map; `writeBody` forces an implicit `writeHeader 200` first; a panic
aborts (there is no recover anywhere in the package). -/
def applyOps : List WOp → RecState → Except GoStr RecState
  | [], st => .ok st
  | op :: rest, st =>
    match op with
    | .setHeader k v =>
      applyOps rest { st with HeaderMap := mapSet st.HeaderMap (canonicalMIMEHeaderKey k) [v] }
    | .addHeader k v =>
      applyOps rest { st with HeaderMap := appendG st.HeaderMap (canonicalMIMEHeaderKey k) v }
    | .delHeader k =>
      applyOps rest { st with HeaderMap := mapDel st.HeaderMap (canonicalMIMEHeaderKey k) }
    | .writeHeader code =>
      if st.wroteHeader then applyOps rest st
      else if code < 100 ∨ 999 < code then .error (s2b "invalid WriteHeader code")
      else
        applyOps rest
          { st with Code := code, wroteHeader := true, snapHeader := some st.HeaderMap }
    | .writeBody b =>
      if st.wroteHeader then applyOps rest { st with Body := st.Body ++ b }
      else
        applyOps rest
          { st with Code := 200, wroteHeader := true, snapHeader := some st.HeaderMap,
                    Body := st.Body ++ b }
    | .panicWith msg => .error msg

/-- The fields of `recorder.Result()` the package reads: status code (200 when
zero), status line `"<code> <text>"`, and the snapshot header (the header map
itself when no snapshot was taken). -/
structure HTTPResponse where
  StatusCode : Nat
  Status : GoStr
  Header : Header
deriving DecidableEq

/-- `recorder.Result()`, restricted to the fields the package reads. -/
def recResult (rec : RecState) : HTTPResponse :=
  let snap := match rec.snapHeader with | some h => h | none => rec.HeaderMap
  let code := if rec.Code = 0 then 200 else rec.Code
  { StatusCode := code, Status := pad3 code ++ 32 :: statusText code, Header := snap }

/-! ## lambdaHandler.Run -/

/-- The two error kinds the entry point can surface. -/
inductive AlbError
  | malformedURL (e : GoStr)
  | malformedBody (body : GoStr)
deriving DecidableEq

/-- What a call of the entry point does: return `(nil, error)`, propagate a
handler panic uncaught, or return `(reply, nil)`. -/
inductive RunOutcome
  | err (e : AlbError)
  | panicked (msg : GoStr)
  | ok (r : response)
deriving DecidableEq

def RunOutcome.isErr : RunOutcome → Bool
  | .err _ => true
  | _ => false

/-- The request-reconstruction part of `lambdaHandler.Run`: URL via
`buildURL`, canonicalized headers, host from the `Host` header, fixed
HTTP/1.1, and the body (base64-decoded when flagged) with its exact length. -/
def buildRequest (req : request) : Except AlbError HTTPRequest :=
  match buildURL req.Path req.QueryProvided with
  | .error e => .error (.malformedURL e)
  | .ok u =>
    let headers := (req.HeadersProvided).foldl
      (fun m kv => mapSet m (canonicalMIMEHeaderKey kv.1) kv.2) []
    let base : HTTPRequest :=
      { ProtoMajor := 1, ProtoMinor := 1, Proto := s2b "HTTP/1.1",
        Method := req.Method, URL := u, Header := headers,
        Host := headerGet headers (s2b "Host"), Body := [], ContentLength := 0 }
    if req.BodyEncoded then
      match decodeBase64 req.Body with
      | none => .error (.malformedBody req.Body)
      | some b => .ok { base with Body := b, ContentLength := b.length }
    else .ok { base with Body := req.Body, ContentLength := req.Body.length }

/-- The reply-serialization part of `lambdaHandler.Run`: status fields from
`recorder.Result()`, headers via `SetHeaders`, and the captured body emitted
as text when it is valid UTF-8 and as base64 (with the flag set) otherwise. -/
def serializeReply (req : request) (rec : RecState) : response :=
  let res := recResult rec
  let out0 : response := { StatusCode := res.StatusCode, Status := res.Status }
  let out1 := out0.SetHeaders req res.Header
  if utf8Valid rec.Body then { out1 with Body := rec.Body }
  else { out1 with Body := base64Encode rec.Body, BodyEncoded := true }

/-- `lambdaHandler.Run`: reconstruct the request, serve it against a fresh
recorder, serialize the reply. -/
def Run (h : Handler) (req : request) : RunOutcome :=
  match buildRequest req with
  | .error e => .err e
  | .ok r =>
    match applyOps (h r) initRec with
    | .error msg => .panicked msg
    | .ok rec => .ok (serializeReply req rec)

end Alb

namespace Alb

example : s2b "AQ==" = [65, 81, 61, 61] := by decide

example : decodeBase64 (s2b "aGVsbG8=") = some (s2b "hello") := by decide

example : decodeBase64 (s2b "not-valid-base64!!!") = none := by decide

example : base64Encode [0, 1, 2, 255, 254] = s2b "AAEC//4=" := by decide

example : utf8Valid (s2b "Hello") = true := by decide

example : utf8Valid [0x00, 0x01, 0x02, 0xFF, 0xFE] = false := by decide

example : canonicalMIMEHeaderKey (s2b "content-type") = s2b "Content-Type" := by decide

example : canonicalMIMEHeaderKey (s2b "a b") = s2b "a b" := by decide

example :
    Run (fun _ => [.writeHeader 200, .writeBody (s2b "hello")])
        { Method := s2b "GET", Path := s2b "/test" } =
      .ok { StatusCode := 200, Status := s2b "200 OK", Headers := some [],
            MultiValueHeaders := none, Body := s2b "hello", BodyEncoded := false } := by
  decide

example :
    Run (fun r => [.writeBody r.Body])
        { Method := s2b "POST", Path := s2b "/echo", Body := s2b "aGVsbG8=",
          BodyEncoded := true } =
      .ok { StatusCode := 200, Status := s2b "200 OK", Headers := some [],
            MultiValueHeaders := none, Body := s2b "hello", BodyEncoded := false } := by
  decide

example :
    Run (fun _ => [.writeBody (s2b "x")])
        { Method := s2b "POST", Path := s2b "/test", Body := s2b "not-valid-base64!!!",
          BodyEncoded := true } =
      .err (.malformedBody (s2b "not-valid-base64!!!")) := by
  decide

example :
    Run (fun _ => [.writeBody [0x00, 0x01, 0x02, 0xFF, 0xFE]])
        { Method := s2b "GET", Path := s2b "/binary" } =
      .ok { StatusCode := 200, Status := s2b "200 OK", Headers := some [],
            MultiValueHeaders := none, Body := s2b "AAEC//4=", BodyEncoded := true } := by
  decide

example :
    Run (fun r => [.writeBody (headerGet r.Header (s2b "X-Custom-Header"))])
        { Method := s2b "GET", Path := s2b "/headers",
          Headers := some [(s2b "X-Custom-Header", s2b "custom-value")] } =
      .ok { StatusCode := 200, Status := s2b "200 OK", Headers := some [],
            MultiValueHeaders := none, Body := s2b "custom-value", BodyEncoded := false } := by
  decide

example :
    Run (fun r => [.writeBody r.Host])
        { Method := s2b "GET", Path := s2b "/host",
          Headers := some [(s2b "Host", s2b "example.com")] } =
      .ok { StatusCode := 200, Status := s2b "200 OK", Headers := some [],
            MultiValueHeaders := none, Body := s2b "example.com", BodyEncoded := false } := by
  decide

example :
    Run (fun r => [.writeBody r.URL.RawQuery])
        { Method := s2b "GET", Path := s2b "/query",
          Query := some [(s2b "key", s2b "value")] } =
      .ok { StatusCode := 200, Status := s2b "200 OK", Headers := some [],
            MultiValueHeaders := none, Body := s2b "key=value", BodyEncoded := false } := by
  decide

example :
    Run (fun _ => [.addHeader (s2b "X-Multi") (s2b "first"),
                   .addHeader (s2b "X-Multi") (s2b "second"), .writeHeader 200])
        { Method := s2b "GET", Path := s2b "/multi" } =
      .ok { StatusCode := 200, Status := s2b "200 OK",
            Headers := some [(s2b "X-Multi", s2b "first,second")],
            MultiValueHeaders := none, Body := [], BodyEncoded := false } := by
  decide

example :
    Run (fun _ => [.writeHeader 404, .writeBody (s2b "not found")])
        { Method := s2b "GET", Path := s2b "/missing" } =
      .ok { StatusCode := 404, Status := s2b "404 Not Found", Headers := some [],
            MultiValueHeaders := none, Body := s2b "not found", BodyEncoded := false } := by
  decide

example :
    Run (fun _ => [.writeBody (s2b "Hello, 世界! 🌍")])
        { Method := s2b "GET", Path := s2b "/utf8" } =
      .ok { StatusCode := 200, Status := s2b "200 OK", Headers := some [],
            MultiValueHeaders := none, Body := s2b "Hello, 世界! 🌍",
            BodyEncoded := false } := by
  decide

example :
    (buildURL (s2b "/search") [(s2b "q", [s2b "hello%20world"])]).toOption.map
        URL.RawQuery =
      some (s2b "q=hello%20world") := by
  decide

example : (unescape (s2b "hello%20world") .queryComponent).toOption = some (s2b "hello world") := by
  decide

example : (unescape (s2b "a%2Bb") .queryComponent).toOption = some (s2b "a+b") := by
  decide

example :
    (urlParse (s2b "/api/v1/users%2F123")).toOption.map URL.Path =
      some (s2b "/api/v1/users/123") := by
  decide

example :
    Run (fun _ => [.panicWith (s2b "boom")]) { Method := s2b "GET", Path := s2b "/" } =
      .panicked (s2b "boom") := by
  decide

/-! ## Helper lemmas -/

/-- Concrete fixtures used by witnesses. -/
def panicHandler : Handler := fun _ => [.panicWith (s2b "boom")]

def binHandler : Handler := fun _ => [.writeBody [0, 1, 2, 255, 254]]

def multiHandler : Handler := fun _ =>
  [.addHeader (s2b "X-Multi") (s2b "first"), .addHeader (s2b "X-Multi") (s2b "second"),
    .writeHeader 200]

def reqAt (p : String) : request := { Method := s2b "GET", Path := s2b p }

def httpReqAt (p : String) : HTTPRequest :=
  { ProtoMajor := 1, ProtoMinor := 1, Proto := s2b "HTTP/1.1", Method := s2b "GET",
    URL := { Path := s2b p }, Header := [], Host := [], Body := [], ContentLength := 0 }

def b64Req : request :=
  { Method := s2b "POST", Path := s2b "/echo", Body := s2b "aGVsbG8=",
    BodyEncoded := true }

def badB64Req : request :=
  { Method := s2b "POST", Path := s2b "/test", Body := s2b "not-valid-base64!!!",
    BodyEncoded := true }

def binRec : RecState :=
  { Code := 200, HeaderMap := [], Body := [0, 1, 2, 255, 254], wroteHeader := true,
    snapHeader := some [] }

def multiRec : RecState :=
  { Code := 200, HeaderMap := [(s2b "X-Multi", [s2b "first", s2b "second"])], Body := [],
    wroteHeader := true, snapHeader := some [(s2b "X-Multi", [s2b "first", s2b "second"])] }

theorem setHeaders_Body (r : response) (req : request) (resH : Header) :
    (r.SetHeaders req resH).Body = r.Body := by
  cases h : req.MultiValueHeaders <;> simp [response.SetHeaders, h]

theorem setHeaders_BodyEncoded (r : response) (req : request) (resH : Header) :
    (r.SetHeaders req resH).BodyEncoded = r.BodyEncoded := by
  cases h : req.MultiValueHeaders <;> simp [response.SetHeaders, h]

theorem serializeReply_body (req : request) (rec : RecState) :
    ((utf8Valid rec.Body = true → (serializeReply req rec).Body = rec.Body ∧
        (serializeReply req rec).BodyEncoded = false) ∧
      (utf8Valid rec.Body = false → (serializeReply req rec).Body = base64Encode rec.Body ∧
        (serializeReply req rec).BodyEncoded = true)) := by
  constructor
  · intro hv
    constructor <;> simp [serializeReply, hv, setHeaders_BodyEncoded]
  · intro hv
    constructor <;> simp [serializeReply, hv]

theorem run_eq_of_stages (h : Handler) (req : request) (r : HTTPRequest)
    (rec : RecState) (h1 : buildRequest req = .ok r)
    (h2 : applyOps (h r) initRec = .ok rec) :
    Run h req = .ok (serializeReply req rec) := by
  simp [Run, h1, h2]

/-! ## Query-join algebra (for buildURL) -/

/-- The `key=value` pairs `buildURL` emits, one per value, in iteration
order, values of one key kept in their given order; keys whose value list is
empty contribute nothing. -/
def flatPairs : List (GoStr × List GoStr) → List (GoStr × GoStr)
  | [] => []
  | (k, vs) :: rest => vs.map (fun v => (k, v)) ++ flatPairs rest

/-- Join byte strings with a one-byte separator. -/
def joinSep (sep : Nat) : List GoStr → GoStr
  | [] => []
  | [s] => s
  | s :: rest => s ++ sep :: joinSep sep rest

theorem joinSep_cons_eq (sep : Nat) (s : GoStr) (ss : List GoStr) :
    joinSep sep (s :: ss) = s ++ (ss.map (fun t => sep :: t)).flatten := by
  induction ss generalizing s with
  | nil => simp [joinSep]
  | cons t ts ih => simp [joinSep, ih t]

theorem queryJoinVals_pos (k : GoStr) (vs : List GoStr) (i : Nat) (hi : i ≠ 0) :
    queryJoinVals k vs i =
      ((vs.map (fun v => k ++ 61 :: v)).map (fun t => 38 :: t)).flatten := by
  induction vs generalizing i with
  | nil => simp [queryJoinVals]
  | cons v vs ih =>
    simp [queryJoinVals, hi, ih (i + 1) (Nat.succ_ne_zero i)]

theorem queryJoinAux_pos (q : List (GoStr × List GoStr)) (i : Nat) (hi : i ≠ 0) :
    queryJoinAux q i =
      (((flatPairs q).map (fun kv => kv.1 ++ 61 :: kv.2)).map (fun t => 38 :: t)).flatten := by
  induction q generalizing i with
  | nil => simp [queryJoinAux, flatPairs]
  | cons kv rest ih =>
    obtain ⟨k, vs⟩ := kv
    have hlen : i + vs.length ≠ 0 := by omega
    simp only [queryJoinAux, flatPairs, queryJoinVals_pos k vs i hi, ih _ hlen,
      List.map_append, List.flatten_append, List.map_map]
    rfl

theorem queryJoin_eq_joinSep (q : List (GoStr × List GoStr)) :
    queryJoin q = joinSep 38 ((flatPairs q).map (fun kv => kv.1 ++ 61 :: kv.2)) := by
  induction q with
  | nil => simp [queryJoin, queryJoinAux, flatPairs, joinSep]
  | cons kv rest ih =>
    obtain ⟨k, vs⟩ := kv
    cases vs with
    | nil =>
      have : queryJoin ((k, []) :: rest) = queryJoin rest := by
        simp [queryJoin, queryJoinAux, queryJoinVals]
      rw [this, ih]
      simp [flatPairs]
    | cons v vs =>
      have hstep : queryJoin ((k, v :: vs) :: rest) =
          (k ++ 61 :: v) ++ (queryJoinVals k vs 1 ++ queryJoinAux rest (vs.length + 1)) := by
        simp [queryJoin, queryJoinAux, queryJoinVals]
      rw [hstep, queryJoinVals_pos k vs 1 (by omega),
        queryJoinAux_pos rest (vs.length + 1) (by omega)]
      simp only [flatPairs, List.map_cons, List.map_append, joinSep_cons_eq,
        List.flatten_append, List.map_map, List.cons_append, List.append_assoc]
      rfl

theorem flatPairs_append (l1 l2 : List (GoStr × List GoStr)) :
    flatPairs (l1 ++ l2) = flatPairs l1 ++ flatPairs l2 := by
  induction l1 with
  | nil => simp [flatPairs]
  | cons kv rest ih => simp [flatPairs, ih]

theorem flatPairs_eq_nil_of_all_nil (q : List (GoStr × List GoStr))
    (h : ∀ kv ∈ q, kv.2 = []) : flatPairs q = [] := by
  induction q with
  | nil => rfl
  | cons kv rest ih =>
    have h1 : kv.2 = [] := h kv (List.mem_cons_self kv rest)
    have h2 : flatPairs rest = [] := ih (fun kv hm => h kv (List.mem_cons_of_mem _ hm))
    simp [flatPairs, h1, h2]

/-! ## Byte-string lemmas for URL parsing -/

theorem containsB_append (l1 l2 : GoStr) (b : Nat) :
    containsB (l1 ++ l2) b = (containsB l1 b || containsB l2 b) := by
  simp [containsB, List.any_append]

theorem containsB_cons (c : Nat) (l : GoStr) (b : Nat) :
    containsB (c :: l) b = ((c == b) || containsB l b) := by
  simp [containsB]

theorem goCut_not_found (s : GoStr) (b : Nat) (h : containsB s b = false) :
    goCut s b = (s, [], false) := by
  induction s with
  | nil => rfl
  | cons c rest ih =>
    rw [containsB_cons] at h
    have hc : c ≠ b := by
      intro hcb
      simp [hcb] at h
    have hrest := ih (by simpa [hc] using h)
    simp [goCut, hc, hrest]

theorem goCut_split_first (pre : GoStr) (b : Nat) (post : GoStr)
    (h : containsB pre b = false) :
    goCut (pre ++ b :: post) b = (pre, post, true) := by
  induction pre with
  | nil => simp [goCut]
  | cons c rest ih =>
    rw [containsB_cons] at h
    have hc : c ≠ b := by
      intro hcb
      simp [hcb] at h
    have hrest := ih (by simpa [hc] using h)
    simp [goCut, hc, hrest]

theorem startsW_cons_of (s : GoStr) (b : Nat) (h : startsW s [b] = true) :
    ∃ t, s = b :: t := by
  cases s with
  | nil => exact absurd h (by simp [startsW])
  | cons c t =>
    refine ⟨t, ?_⟩
    have : c = b := by
      by_contra hne
      simp [startsW, hne] at h
    rw [this]

theorem getScheme_slash (s : GoStr) : getScheme (47 :: s) = .ok ([], 47 :: s) := by
  simp [getScheme, getSchemeLoop]

theorem dropLast_append_cons_ne_nil (l1 : GoStr) (b : Nat) (l2 : GoStr) (h : l2 ≠ []) :
    (l1 ++ b :: l2).dropLast = l1 ++ b :: l2.dropLast := by
  induction l1 with
  | nil =>
    cases l2 with
    | nil => exact absurd rfl h
    | cons d tl => simp
  | cons c rest ih =>
    rw [List.cons_append, List.dropLast_cons_of_ne_nil (by simp), ih, List.cons_append]

/-- Which paths the URL-parse evaluation lemmas cover: a plain absolute path
with no query/fragment byte, no control byte, no authority prefix, and valid
percent escapes. -/
def pathOK (path : GoStr) : Prop :=
  startsW path [47] = true ∧ startsW path [47, 47] = false ∧
    containsB path 63 = false ∧ containsB path 35 = false ∧
    containsCTLByte path = false ∧ (unescape path .path).toOption.isSome = true

instance (path : GoStr) : Decidable (pathOK path) := by
  unfold pathOK
  infer_instance

theorem containsCTL_append (l1 l2 : GoStr) :
    containsCTLByte (l1 ++ l2) = (containsCTLByte l1 || containsCTLByte l2) := by
  simp [containsCTLByte, List.any_append]

theorem containsCTL_cons (c : Nat) (l : GoStr) :
    containsCTLByte (c :: l) = (decide (c < 32 ∨ c = 127) || containsCTLByte l) := by
  simp [containsCTLByte]

theorem setPath_ok (p dec : GoStr) (h : unescape p .path = .ok dec) (u : URL) :
    setPath u p =
      .ok { u with Path := dec,
                   RawPath := if p = escapeGo dec .path then [] else p } := by
  unfold setPath
  rw [h]
  by_cases he : p = escapeGo dec .path <;> simp [he]

/-- Evaluating `url.Parse` on `path ++ "?" ++ qs` for a plain path and a
nonempty fragment-free control-free query string: it succeeds and stores `qs`
verbatim as the raw query. -/
theorem urlParse_path_query (path qs : GoStr) (hp : pathOK path) (hqs : qs ≠ [])
    (hq35 : containsB qs 35 = false) (hqctl : containsCTLByte qs = false) :
    ∃ u, urlParse (path ++ 63 :: qs) = .ok u ∧ u.RawQuery = qs ∧
      u.ForceQuery = false := by
  obtain ⟨hp1, hp2, hp3, hp4, hp5, hp6⟩ := hp
  obtain ⟨t, hpath⟩ := startsW_cons_of path 47 hp1
  obtain ⟨dec, hdec⟩ : ∃ dec, unescape path .path = .ok dec := by
    cases hu : unescape path .path with
    | ok d => exact ⟨d, rfl⟩
    | error e => rw [hu] at hp6; simp [Except.toOption] at hp6
  have h35 : containsB (path ++ 63 :: qs) 35 = false := by
    rw [containsB_append, containsB_cons]
    simp [hp4, hq35]
  have hctl : containsCTLByte (path ++ 63 :: qs) = false := by
    rw [containsCTL_append, containsCTL_cons, hp5, hqctl]
    decide
  have hcut := goCut_not_found (path ++ 63 :: qs) 35 h35
  have hne42 : path ++ 63 :: qs ≠ [42] := by
    rw [hpath, List.cons_append]
    intro hc
    injection hc with h1 _
    omega
  have hsch : getScheme (path ++ 63 :: qs) = .ok ([], path ++ 63 :: qs) := by
    rw [hpath, List.cons_append, getScheme_slash]
  have hqcut := goCut_split_first path 63 qs hp3
  have hdl : containsB (path ++ 63 :: qs).dropLast 63 = true := by
    rw [dropLast_append_cons_ne_nil path 63 qs hqs, containsB_append, containsB_cons]
    simp
  unfold urlParse
  rw [hcut]
  simp only
  unfold urlParseInner
  simp only [hsch, hctl, hqcut, hdl, hp1, hp2, hne42, setPath_ok path dec hdec,
    Bool.false_eq_true, not_true, not_false_iff, false_and, and_false, if_false,
    if_true, ite_false, ite_true]
  exact ⟨_, rfl, rfl, rfl⟩

/-- Evaluating `url.Parse` on `path ++ "?"` for a plain path: it succeeds
with `ForceQuery` set and an empty raw query. -/
theorem urlParse_path_forceQuery (path : GoStr) (hp : pathOK path) :
    ∃ u, urlParse (path ++ [63]) = .ok u ∧ u.RawQuery = [] ∧ u.ForceQuery = true := by
  obtain ⟨hp1, hp2, hp3, hp4, hp5, hp6⟩ := hp
  obtain ⟨t, hpath⟩ := startsW_cons_of path 47 hp1
  obtain ⟨dec, hdec⟩ : ∃ dec, unescape path .path = .ok dec := by
    cases hu : unescape path .path with
    | ok d => exact ⟨d, rfl⟩
    | error e => rw [hu] at hp6; simp [Except.toOption] at hp6
  have h35 : containsB (path ++ [63]) 35 = false := by
    rw [containsB_append, containsB_cons, hp4]
    decide
  have hctl : containsCTLByte (path ++ [63]) = false := by
    rw [containsCTL_append, containsCTL_cons, hp5]
    simp [containsCTLByte]
  have hcut := goCut_not_found (path ++ [63]) 35 h35
  have hne42 : path ++ [63] ≠ [42] := by
    rw [hpath, List.cons_append]
    intro hc
    injection hc with h1 _
    omega
  have hsch : getScheme (path ++ [63]) = .ok ([], path ++ [63]) := by
    rw [hpath, List.cons_append, getScheme_slash]
  have hends : endsWithB (path ++ [63]) 63 = true := by
    simp [endsWithB, List.getLast?_concat]
  have hdrop : (path ++ [63]).dropLast = path := by
    simp
  unfold urlParse
  rw [hcut]
  simp only
  unfold urlParseInner
  simp only [hsch, hctl, hends, hdrop, hp3, hp1, hp2, hne42, setPath_ok path dec hdec,
    Bool.false_eq_true, not_true, not_false_iff, false_and, and_false, true_and,
    and_true, if_false, if_true, ite_false, ite_true]
  exact ⟨_, rfl, rfl, rfl⟩

/-! ## Claims -/

/-- C4: the multi-value form of query parameters and of headers takes
precedence by presence, not content: a non-nil multi-value map — even an
empty one — is used verbatim and the single-value map is ignored; only a nil
multi-value map falls back to the single-value map, each entry wrapped as a
one-element sequence. -/
theorem multiValue_precedence_by_presence (r : request) :
    (∀ m, r.MultiValueHeaders = some m → r.HeadersProvided = m) ∧
    (r.MultiValueHeaders = none →
      r.HeadersProvided = (r.Headers.getD []).map (fun kv => (kv.1, [kv.2]))) ∧
    (∀ m, r.MultiValueQuery = some m → r.QueryProvided = m) ∧
    (r.MultiValueQuery = none →
      r.QueryProvided = (r.Query.getD []).map (fun kv => (kv.1, [kv.2]))) := by
  refine ⟨fun m hm => ?_, fun hm => ?_, fun m hm => ?_, fun hm => ?_⟩ <;>
    simp [request.HeadersProvided, request.QueryProvided, hm]

/-- C4 witness: an explicitly-present empty multi-value header map wins over a
non-empty single-value map. -/
theorem multiValue_precedence_by_presence_witness :
    request.HeadersProvided
        { MultiValueHeaders := some [], Headers := some [(s2b "X-A", s2b "v")] } = [] :=
  (multiValue_precedence_by_presence _).1 [] rfl

/-- C1: request reconstruction preserves the body exactly — raw string bytes
and their length when `bodyEncoded` is false, the base64-decoded bytes and
their length when `bodyEncoded` is true and the body decodes. -/
theorem body_reconstruction_exact (req : request) (r : HTTPRequest)
    (hok : buildRequest req = .ok r) :
    (req.BodyEncoded = false → r.Body = req.Body ∧ r.ContentLength = req.Body.length) ∧
    (∀ b, req.BodyEncoded = true → decodeBase64 req.Body = some b →
      r.Body = b ∧ r.ContentLength = b.length) := by
  cases hu : buildURL req.Path req.QueryProvided with
  | error e => rw [buildRequest, hu] at hok; exact absurd hok (by simp)
  | ok u =>
    constructor
    · intro hb
      simp only [buildRequest, hu, hb, Bool.false_eq_true, if_false] at hok
      cases hok
      exact ⟨rfl, rfl⟩
    · intro b hb hd
      simp only [buildRequest, hu, hb, if_true, hd] at hok
      cases hok
      exact ⟨rfl, rfl⟩

/-- C1 witness: a base64-flagged body, reconstructed concretely. -/
theorem body_reconstruction_exact_witness :
    (b64Req.BodyEncoded = true ∧ decodeBase64 b64Req.Body = some (s2b "hello")) ∧
    ∀ r, buildRequest b64Req = .ok r →
      r.Body = s2b "hello" ∧ r.ContentLength = (s2b "hello").length :=
  ⟨⟨rfl, by decide⟩, fun r hok =>
    (body_reconstruction_exact b64Req r hok).2 (s2b "hello") rfl (by decide)⟩

/-- C5: an event flagged base64 whose body does not decode makes the entry
point return an error and no reply; the handler is never consulted and no
request is built from the undecoded text. -/
theorem invalid_base64_rejected (h1 h2 : Handler) (req : request)
    (henc : req.BodyEncoded = true) (hbad : decodeBase64 req.Body = none) :
    (∃ e, Run h1 req = .err e) ∧ (∀ out, Run h1 req ≠ .ok out) ∧
      (∃ e, buildRequest req = .error e) ∧ Run h1 req = Run h2 req := by
  have hreq : ∃ e, buildRequest req = .error e := by
    cases hu : buildURL req.Path req.QueryProvided with
    | error e => exact ⟨.malformedURL e, by simp [buildRequest, hu]⟩
    | ok u => exact ⟨.malformedBody req.Body, by simp [buildRequest, hu, henc, hbad]⟩
  obtain ⟨e, he⟩ := hreq
  refine ⟨⟨e, by simp [Run, he]⟩, ?_, ⟨e, he⟩, by simp [Run, he]⟩
  intro out hcontra
  rw [show Run h1 req = .err e by simp [Run, he]] at hcontra
  exact RunOutcome.noConfusion hcontra

/-- C5 witness: the invalid-base64 event from the package's own tests. -/
theorem invalid_base64_rejected_witness :
    (badB64Req.BodyEncoded = true ∧ decodeBase64 badB64Req.Body = none) ∧
    (∃ e, Run binHandler badB64Req = .err e) ∧
    Run binHandler badB64Req = Run panicHandler badB64Req :=
  ⟨⟨rfl, by decide⟩,
    (invalid_base64_rejected binHandler panicHandler badB64Req rfl (by decide)).1,
    (invalid_base64_rejected binHandler panicHandler badB64Req rfl (by decide)).2.2.2⟩

/-- C2: the reply body encoding is decided by a UTF-8 validity test on the
complete captured body bytes — emitted verbatim with the flag false when
valid, base64-encoded with the flag true otherwise. -/
theorem reply_body_utf8_decision (h : Handler) (req : request) (r : HTTPRequest)
    (rec : RecState) (h1 : buildRequest req = .ok r)
    (h2 : applyOps (h r) initRec = .ok rec) :
    ∃ out, Run h req = .ok out ∧
      (utf8Valid rec.Body = true → out.Body = rec.Body ∧ out.BodyEncoded = false) ∧
      (utf8Valid rec.Body = false →
        out.Body = base64Encode rec.Body ∧ out.BodyEncoded = true) :=
  ⟨serializeReply req rec, run_eq_of_stages h req r rec h1 h2,
    (serializeReply_body req rec).1, (serializeReply_body req rec).2⟩

/-- C2 witness: a handler writing non-UTF-8 bytes gets a base64 reply body
with the flag set. -/
theorem reply_body_utf8_decision_witness :
    (buildRequest (reqAt "/binary") = .ok (httpReqAt "/binary") ∧
      applyOps (binHandler (httpReqAt "/binary")) initRec = .ok binRec ∧
      utf8Valid binRec.Body = false) ∧
    (∃ out, Run binHandler (reqAt "/binary") = .ok out ∧
      (utf8Valid binRec.Body = true → out.Body = binRec.Body ∧ out.BodyEncoded = false) ∧
      (utf8Valid binRec.Body = false →
        out.Body = base64Encode binRec.Body ∧ out.BodyEncoded = true)) :=
  ⟨⟨rfl, rfl, by decide⟩,
    reply_body_utf8_decision binHandler (reqAt "/binary") (httpReqAt "/binary") binRec
      rfl rfl⟩

/-- C3: the reply's header shape mirrors the inbound form — single-value
headers (each recorded value list joined by `,` in order) exactly when the
event's `multiValueHeaders` was nil, the recorded mapping verbatim in the
multi-value field exactly when it was non-nil; the other field stays nil. -/
theorem reply_header_shape_mirrors_inbound (h : Handler) (req : request)
    (r : HTTPRequest) (rec : RecState) (h1 : buildRequest req = .ok r)
    (h2 : applyOps (h r) initRec = .ok rec) :
    ∃ out, Run h req = .ok out ∧
      (req.MultiValueHeaders = none →
        out.Headers =
            some ((recResult rec).Header.map (fun kv => (kv.1, joinComma kv.2))) ∧
          out.MultiValueHeaders = none) ∧
      (∀ m, req.MultiValueHeaders = some m →
        out.MultiValueHeaders = some (recResult rec).Header ∧ out.Headers = none) := by
  refine ⟨serializeReply req rec, run_eq_of_stages h req r rec h1 h2, ?_, ?_⟩
  · intro hm
    have hset : ∀ r0 : response, (r0.SetHeaders req (recResult rec).Header).Headers =
        some ((recResult rec).Header.map (fun kv => (kv.1, joinComma kv.2))) ∧
        (r0.SetHeaders req (recResult rec).Header).MultiValueHeaders =
          r0.MultiValueHeaders := by
      intro r0; simp [response.SetHeaders, hm]
    cases hv : utf8Valid rec.Body <;>
      simp [serializeReply, hv, (hset _).1, (hset _).2]
  · intro m hm
    have hset : ∀ r0 : response, (r0.SetHeaders req (recResult rec).Header).MultiValueHeaders =
        some (recResult rec).Header ∧
        (r0.SetHeaders req (recResult rec).Header).Headers = r0.Headers := by
      intro r0; simp [response.SetHeaders, hm]
    cases hv : utf8Valid rec.Body <;>
      simp [serializeReply, hv, (hset _).1, (hset _).2]

/-- C3 witness: two `Add` calls on one key serialize to `"first,second"` in
single-value reply mode. -/
theorem reply_header_shape_mirrors_inbound_witness :
    (buildRequest (reqAt "/multi") = .ok (httpReqAt "/multi") ∧
      applyOps (multiHandler (httpReqAt "/multi")) initRec = .ok multiRec ∧
      (reqAt "/multi").MultiValueHeaders = none ∧
      (recResult multiRec).Header.map (fun kv => (kv.1, joinComma kv.2)) =
        [(s2b "X-Multi", s2b "first,second")]) ∧
    (∃ out, Run multiHandler (reqAt "/multi") = .ok out ∧
      ((reqAt "/multi").MultiValueHeaders = none →
        out.Headers =
            some ((recResult multiRec).Header.map (fun kv => (kv.1, joinComma kv.2))) ∧
          out.MultiValueHeaders = none) ∧
      (∀ m, (reqAt "/multi").MultiValueHeaders = some m →
        out.MultiValueHeaders = some (recResult multiRec).Header ∧ out.Headers = none)) :=
  ⟨⟨rfl, rfl, rfl, by decide⟩,
    reply_header_shape_mirrors_inbound multiHandler (reqAt "/multi")
      (httpReqAt "/multi") multiRec rfl rfl⟩

/-- C9 counterexample: a handler panic is not turned into an adapter-level
error return — the entry point propagates it. -/
theorem handler_panic_not_translated_cex :
    Run panicHandler (reqAt "/") = .panicked (s2b "boom") ∧
      (Run panicHandler (reqAt "/")).isErr = false := by
  exact ⟨by decide, by decide⟩

/-- C9 (amended): a panic raised by the handler during its invocation is not
caught at the response-capture boundary; the entry point propagates it raw
(the surrounding Lambda runtime, outside this package, must deal with it),
and no adapter-level error is returned. -/
theorem handler_panic_propagates (h : Handler) (req : request) (r : HTTPRequest)
    (msg : GoStr) (h1 : buildRequest req = .ok r)
    (h2 : applyOps (h r) initRec = .error msg) :
    Run h req = .panicked msg ∧ (Run h req).isErr = false := by
  have hrun : Run h req = .panicked msg := by simp [Run, h1, h2]
  exact ⟨hrun, by rw [hrun]; rfl⟩

/-- C9 witness: the panicking handler at a concrete event. -/
theorem handler_panic_propagates_witness :
    (buildRequest (reqAt "/") = .ok (httpReqAt "/") ∧
      applyOps (panicHandler (httpReqAt "/")) initRec = .error (s2b "boom")) ∧
    Run panicHandler (reqAt "/") = .panicked (s2b "boom") :=
  ⟨⟨rfl, rfl⟩,
    (handler_panic_propagates panicHandler (reqAt "/") (httpReqAt "/") (s2b "boom")
      rfl rfl).1⟩

/-! ## Header canonicalization lemmas (for C8) -/

theorem toUpperB_idem (b : Nat) : toUpperB (toUpperB b) = toUpperB b := by
  unfold toUpperB
  split_ifs <;> omega

theorem toLowerB_idem (b : Nat) : toLowerB (toLowerB b) = toLowerB b := by
  unfold toLowerB
  split_ifs <;> omega

theorem toUpperB_congr_lower (b b' : Nat) (h : toLowerB b = toLowerB b') :
    toUpperB b = toUpperB b' := by
  unfold toLowerB at h
  unfold toUpperB
  split_ifs at h ⊢ <;> omega

theorem toUpperB_hyphen (b : Nat) : (toUpperB b = 45) = (b = 45) := by
  unfold toUpperB
  split_ifs <;> simp <;> omega

theorem toLowerB_hyphen (b : Nat) : (toLowerB b = 45) = (b = 45) := by
  unfold toLowerB
  split_ifs <;> simp <;> omega

theorem toLowerB_hyphen_congr (b b' : Nat) (h : toLowerB b = toLowerB b') :
    (b = 45) = (b' = 45) := by
  rw [← toLowerB_hyphen b, ← toLowerB_hyphen b', h]

theorem validHeaderFieldByte_toUpperB (b : Nat) (h : validHeaderFieldByte b = true) :
    validHeaderFieldByte (toUpperB b) = true := by
  simp only [validHeaderFieldByte, decide_eq_true_eq] at h ⊢
  unfold toUpperB
  split_ifs <;> omega

theorem validHeaderFieldByte_toLowerB (b : Nat) (h : validHeaderFieldByte b = true) :
    validHeaderFieldByte (toLowerB b) = true := by
  simp only [validHeaderFieldByte, decide_eq_true_eq] at h ⊢
  unfold toLowerB
  split_ifs <;> omega

/-- The canonicalizing pass is determined by the lowercase image of the key. -/
theorem canonLoop_congr_lower (s s' : GoStr) (flag : Bool)
    (h : s.map toLowerB = s'.map toLowerB) : canonLoop flag s = canonLoop flag s' := by
  induction s generalizing s' flag with
  | nil =>
    cases s' with
    | nil => rfl
    | cons c' cs' => exact absurd h (by simp)
  | cons c cs ih =>
    cases s' with
    | nil => exact absurd h (by simp)
    | cons c' cs' =>
      simp only [List.map_cons, List.cons.injEq] at h
      have hbyte : (if flag then toUpperB c else toLowerB c) =
          (if flag then toUpperB c' else toLowerB c') := by
        cases flag with
        | false => simpa using h.1
        | true => simpa using toUpperB_congr_lower c c' h.1
      simp only [canonLoop, hbyte, ih cs' _ h.2]

theorem canonLoop_all_valid (s : GoStr) (flag : Bool)
    (h : s.all validHeaderFieldByte = true) :
    (canonLoop flag s).all validHeaderFieldByte = true := by
  induction s generalizing flag with
  | nil => rfl
  | cons c cs ih =>
    simp only [List.all_cons, Bool.and_eq_true] at h
    simp only [canonLoop, List.all_cons, Bool.and_eq_true]
    refine ⟨?_, ih _ h.2⟩
    cases flag with
    | false => exact validHeaderFieldByte_toLowerB c h.1
    | true => exact validHeaderFieldByte_toUpperB c h.1

theorem canonLoop_idem (s : GoStr) (flag : Bool) :
    canonLoop flag (canonLoop flag s) = canonLoop flag s := by
  induction s generalizing flag with
  | nil => rfl
  | cons c cs ih =>
    simp only [canonLoop]
    have hbyte : (if flag then toUpperB (if flag then toUpperB c else toLowerB c)
        else toLowerB (if flag then toUpperB c else toLowerB c)) =
        (if flag then toUpperB c else toLowerB c) := by
      cases flag with
      | false => simpa using toLowerB_idem c
      | true => simpa using toUpperB_idem c
    simp only [hbyte, ih]

theorem canonicalMIMEHeaderKey_idem (s : GoStr) :
    canonicalMIMEHeaderKey (canonicalMIMEHeaderKey s) = canonicalMIMEHeaderKey s := by
  unfold canonicalMIMEHeaderKey
  by_cases hv : s.all validHeaderFieldByte = true
  · rw [if_pos hv, if_pos (canonLoop_all_valid s true hv), canonLoop_idem]
  · rw [if_neg hv, if_neg hv]

/-- Valid keys equal up to ASCII case canonicalize identically. -/
theorem canonicalMIMEHeaderKey_congr (k k' : GoStr)
    (hk : k.all validHeaderFieldByte = true) (hk' : k'.all validHeaderFieldByte = true)
    (h : k'.map toLowerB = k.map toLowerB) :
    canonicalMIMEHeaderKey k' = canonicalMIMEHeaderKey k := by
  unfold canonicalMIMEHeaderKey
  rw [if_pos hk, if_pos hk']
  exact canonLoop_congr_lower k' k true h

theorem mapLookup_mapSet_self {α : Type} (m : List (GoStr × α)) (k : GoStr) (v : α) :
    mapLookup (mapSet m k v) k = some v := by
  induction m with
  | nil => simp [mapSet, mapLookup]
  | cons kv rest ih =>
    obtain ⟨k0, v0⟩ := kv
    by_cases hk : k0 = k
    · simp [mapSet, mapLookup, hk]
    · simp [mapSet, mapLookup, hk, ih]

theorem mapLookup_mapSet_ne {α : Type} (m : List (GoStr × α)) (k c : GoStr) (v : α)
    (h : c ≠ k) : mapLookup (mapSet m k v) c = mapLookup m c := by
  induction m with
  | nil =>
    unfold mapSet mapLookup
    rw [if_neg (fun hk : k = c => h hk.symm)]
    rfl
  | cons kv rest ih =>
    obtain ⟨k0, v0⟩ := kv
    unfold mapSet
    by_cases hk : k0 = k
    · rw [if_pos hk]
      unfold mapLookup
      rw [if_neg (fun hc : k0 = c => h (hc.symm.trans hk)),
        if_neg (fun hc : k0 = c => h (hc.symm.trans hk))]
    · rw [if_neg hk]
      unfold mapLookup
      by_cases hc : k0 = c
      · rw [if_pos hc, if_pos hc]
      · rw [if_neg hc, if_neg hc, ih]

/-- One step of the header-building fold of `lambdaHandler.Run`. -/
def headerStep (m : Header) (kv : GoStr × List GoStr) : Header :=
  mapSet m (canonicalMIMEHeaderKey kv.1) kv.2

theorem foldl_headerStep_no_key (l : List (GoStr × List GoStr)) (m : Header)
    (c : GoStr) (h : ∀ kv ∈ l, canonicalMIMEHeaderKey kv.1 ≠ c) :
    mapLookup (l.foldl headerStep m) c = mapLookup m c := by
  induction l generalizing m with
  | nil => rfl
  | cons kv rest ih =>
    rw [List.foldl_cons, ih _ (fun kv2 hm => h kv2 (List.mem_cons_of_mem _ hm))]
    exact mapLookup_mapSet_ne m _ c kv.2
      (fun hc => h kv (List.mem_cons_self kv rest) hc.symm)

theorem foldl_headerStep_lookup (l : List (GoStr × List GoStr)) (m : Header)
    (k : GoStr) (vs : List GoStr) (hmem : (k, vs) ∈ l)
    (hnd : (l.map (fun kv => canonicalMIMEHeaderKey kv.1)).Nodup) :
    mapLookup (l.foldl headerStep m) (canonicalMIMEHeaderKey k) = some vs := by
  induction l generalizing m with
  | nil => exact absurd hmem (List.not_mem_nil _)
  | cons kv rest ih =>
    rw [List.map_cons, List.nodup_cons] at hnd
    rcases List.mem_cons.mp hmem with heq | hrest
    · subst heq
      rw [List.foldl_cons,
        foldl_headerStep_no_key rest _ _
          (fun kv2 hm2 hc => hnd.1 (by rw [← hc]; exact List.mem_map_of_mem _ hm2))]
      exact mapLookup_mapSet_self m _ vs
    · exact List.foldl_cons _ _ ▸ ih _ hrest hnd.2

theorem mem_mapSet {α : Type} (m : List (GoStr × α)) (k : GoStr) (v : α)
    (kv : GoStr × α) (h : kv ∈ mapSet m k v) : kv ∈ m ∨ kv.1 = k := by
  induction m with
  | nil => simp [mapSet] at h; simp [h]
  | cons kv0 rest ih =>
    obtain ⟨k0, v0⟩ := kv0
    by_cases hk : k0 = k
    · subst hk
      simp only [mapSet, if_pos rfl] at h
      rcases List.mem_cons.mp h with heq | hm
      · exact Or.inr (by rw [heq])
      · exact Or.inl (List.mem_cons_of_mem _ hm)
    · simp only [mapSet, if_neg hk] at h
      rcases List.mem_cons.mp h with heq | hm
      · exact Or.inl (heq ▸ List.mem_cons_self _ _)
      · rcases ih hm with h1 | h2
        · exact Or.inl (List.mem_cons_of_mem _ h1)
        · exact Or.inr h2

theorem mem_foldl_headerStep (l : List (GoStr × List GoStr)) (m : Header)
    (kv : GoStr × List GoStr) (h : kv ∈ l.foldl headerStep m) :
    kv ∈ m ∨ ∃ kv0 ∈ l, kv.1 = canonicalMIMEHeaderKey kv0.1 := by
  induction l generalizing m with
  | nil => exact Or.inl h
  | cons kv1 rest ih =>
    rw [List.foldl_cons] at h
    rcases ih _ h with hm | ⟨kv0, hk0, hc⟩
    · rcases mem_mapSet m _ _ kv hm with h1 | h2
      · exact Or.inl h1
      · exact Or.inr ⟨kv1, List.mem_cons_self _ _, h2⟩
    · exact Or.inr ⟨kv0, List.mem_cons_of_mem _ hk0, hc⟩

/-- C7: `buildURL` parses the path alone (no extra escaping) for an empty
query map; otherwise it parses `path ++ "?" ++` the `key=value` pairs joined
by `&`, one pair per value of a multi-valued key with same-key value order
preserved (key order is the map's unspecified iteration order, modelled by
the association-list order); it returns an error exactly when the resulting
string fails to parse as a URL. -/
theorem buildURL_algorithm (path : GoStr) (q : List (GoStr × List GoStr)) :
    (q = [] → buildURL path q = urlParse path) ∧
    (q ≠ [] →
      buildURL path q =
        urlParse (path ++ 63 ::
          joinSep 38 ((flatPairs q).map (fun kv => kv.1 ++ 61 :: kv.2)))) ∧
    ((∃ e, buildURL path q = .error e) ↔
      ∃ e, urlParse (if q = [] then path
          else path ++ 63 ::
            joinSep 38 ((flatPairs q).map (fun kv => kv.1 ++ 61 :: kv.2))) =
        .error e) := by
  have hmain : buildURL path q =
      urlParse (if q = [] then path
        else path ++ 63 ::
          joinSep 38 ((flatPairs q).map (fun kv => kv.1 ++ 61 :: kv.2))) := by
    unfold buildURL
    by_cases hq : q = []
    · simp [hq]
    · rw [if_neg (by simpa [List.length_eq_zero] using hq), if_neg hq,
        queryJoin_eq_joinSep]
  exact ⟨fun hq => by rw [hmain, if_pos hq], fun hq => by rw [hmain, if_neg hq],
    by rw [hmain]⟩

/-- C7 witness: one key with two values at a concrete path. -/
theorem buildURL_algorithm_witness :
    (([(s2b "k", [s2b "1", s2b "2"])] : List (GoStr × List GoStr)) ≠ []) ∧
    buildURL (s2b "/a") [(s2b "k", [s2b "1", s2b "2"])] =
      urlParse (s2b "/a" ++ 63 ::
        joinSep 38 ((flatPairs [(s2b "k", [s2b "1", s2b "2"])]).map
          (fun kv => kv.1 ++ 61 :: kv.2))) :=
  ⟨by decide, (buildURL_algorithm (s2b "/a") _).2.1 (by decide)⟩

/-- C10: a key whose value sequence is empty contributes no `key=value` pair
to the query string at all; a non-empty map in which every key has an empty
value sequence produces the URL parsed from `path ++ "?"`, with an empty
query. -/
theorem empty_value_keys_dropped (path : GoStr) (q : List (GoStr × List GoStr)) :
    (∀ k pre post, q = pre ++ (k, ([] : List GoStr)) :: post →
      queryJoin q = queryJoin (pre ++ post)) ∧
    (q ≠ [] → (∀ kv ∈ q, kv.2 = []) → pathOK path →
      buildURL path q = urlParse (path ++ [63]) ∧
      ∃ u, buildURL path q = .ok u ∧ u.RawQuery = [] ∧
        parseQueryGo u.RawQuery = []) := by
  constructor
  · intro k pre post hq
    subst hq
    rw [queryJoin_eq_joinSep, queryJoin_eq_joinSep, flatPairs_append, flatPairs_append]
    simp [flatPairs]
  · intro hq hall hp
    have hflat : flatPairs q = [] := flatPairs_eq_nil_of_all_nil q hall
    have hjoin : queryJoin q = [] := by
      rw [queryJoin_eq_joinSep, hflat]
      rfl
    have hbuild : buildURL path q = urlParse (path ++ [63]) := by
      unfold buildURL
      rw [if_neg (by simpa [List.length_eq_zero] using hq), hjoin]
    obtain ⟨u, hu, hrq, hfq⟩ := urlParse_path_forceQuery path hp
    refine ⟨hbuild, u, by rw [hbuild, hu], hrq, ?_⟩
    rw [hrq]
    simp [parseQueryGo, parseQueryLoop]

/-- C10 witness: one key with an empty value sequence at a concrete path. -/
theorem empty_value_keys_dropped_witness :
    (([(s2b "k", ([] : List GoStr))] : List (GoStr × List GoStr)) ≠ [] ∧
      (∀ kv ∈ ([(s2b "k", ([] : List GoStr))] : List (GoStr × List GoStr)),
        kv.2 = []) ∧
      pathOK (s2b "/x")) ∧
    (buildURL (s2b "/x") [(s2b "k", [])] = urlParse (s2b "/x" ++ [63]) ∧
      ∃ u, buildURL (s2b "/x") [(s2b "k", [])] = .ok u ∧ u.RawQuery = [] ∧
        parseQueryGo u.RawQuery = []) :=
  ⟨⟨by decide, by decide, by decide⟩,
    (empty_value_keys_dropped (s2b "/x") [(s2b "k", [])]).2 (by decide) (by decide)
      (by decide)⟩

/-- Concrete event for the C8 witness. -/
def ctReq : request :=
  { Method := s2b "GET", Path := s2b "/",
    Headers := some [(s2b "content-type", s2b "application/json")] }

/-- C8: every inbound header key (single- or multi-value form) is stored
under its canonical MIME form, and — for token-legal keys occurring under
distinct canonical names — a lookup by any ASCII casing of the same name
returns the supplied values. -/
theorem header_canonicalization (req : request) (r : HTTPRequest)
    (hok : buildRequest req = .ok r) :
    (∀ kv ∈ r.Header, kv.1 = canonicalMIMEHeaderKey kv.1) ∧
    (∀ k vs, (k, vs) ∈ req.HeadersProvided →
      (req.HeadersProvided.map (fun kv => canonicalMIMEHeaderKey kv.1)).Nodup →
      k.all validHeaderFieldByte = true →
      ∀ k', k'.all validHeaderFieldByte = true →
        k'.map toLowerB = k.map toLowerB →
        mapLookup r.Header (canonicalMIMEHeaderKey k') = some vs ∧
        headerGet r.Header k' = vs.headD []) := by
  have hhdr : r.Header = (req.HeadersProvided).foldl headerStep [] := by
    cases hu : buildURL req.Path req.QueryProvided with
    | error e => rw [buildRequest, hu] at hok; exact absurd hok (by simp)
    | ok u =>
      cases hb : req.BodyEncoded with
      | true =>
        cases hd : decodeBase64 req.Body with
        | none =>
          simp only [buildRequest, hu, hb, if_true, hd] at hok
          exact absurd hok (by simp)
        | some b =>
          simp only [buildRequest, hu, hb, if_true, hd] at hok
          cases hok
          rfl
      | false =>
        simp only [buildRequest, hu, hb, Bool.false_eq_true, if_false] at hok
        cases hok
        rfl
  constructor
  · intro kv hkv
    rw [hhdr] at hkv
    rcases mem_foldl_headerStep _ _ kv hkv with hm | ⟨kv0, _, hc⟩
    · exact absurd hm (List.not_mem_nil kv)
    · rw [hc, canonicalMIMEHeaderKey_idem]
  · intro k vs hmem hnd hk k' hk' hlow
    have hcongr := canonicalMIMEHeaderKey_congr k k' hk hk' hlow
    have hlook : mapLookup r.Header (canonicalMIMEHeaderKey k') = some vs := by
      rw [hhdr, hcongr]
      exact foldl_headerStep_lookup _ [] k vs hmem hnd
    refine ⟨hlook, ?_⟩
    unfold headerGet
    rw [hlook]
    cases vs with
    | nil => rfl
    | cons v vstail => rfl

/-- C8 witness: a header supplied as `content-type` is retrievable as
`Content-Type`. -/
theorem header_canonicalization_witness :
    (∃ r, buildRequest ctReq = .ok r) ∧
    ((s2b "content-type", [s2b "application/json"]) ∈ ctReq.HeadersProvided ∧
      (ctReq.HeadersProvided.map (fun kv => canonicalMIMEHeaderKey kv.1)).Nodup ∧
      (s2b "content-type").all validHeaderFieldByte = true ∧
      (s2b "Content-Type").all validHeaderFieldByte = true ∧
      (s2b "Content-Type").map toLowerB = (s2b "content-type").map toLowerB) ∧
    ∀ r, buildRequest ctReq = .ok r →
      mapLookup r.Header (canonicalMIMEHeaderKey (s2b "Content-Type")) =
          some [s2b "application/json"] ∧
        headerGet r.Header (s2b "Content-Type") =
          ([s2b "application/json"]).headD [] :=
  ⟨⟨_, rfl⟩, ⟨by decide, by decide, by decide, by decide, by decide⟩,
    fun r hok =>
      (header_canonicalization ctReq r hok).2 (s2b "content-type")
        [s2b "application/json"] (by decide) (by decide) (by decide)
        (s2b "Content-Type") (by decide) (by decide)⟩

/-! ## Query round-trip lemmas (for C6) -/

/-- Total wrapper of query-component unescaping (identity on failure); under
the validity hypotheses below it is exactly `net/url.QueryUnescape`. -/
def qDec (s : GoStr) : GoStr :=
  match unescape s .queryComponent with
  | .ok r => r
  | .error _ => s

/-- `url.Values` built from an ordered pair list by repeated
`m[k] = append(m[k], v)`. -/
def groupPairs (l : List (GoStr × GoStr)) : List (GoStr × List GoStr) :=
  l.foldl (fun m kv => appendG m kv.1 kv.2) []

/-- A query key already percent-escaped for the wire: free of the separator
and structure bytes `&`, `;`, `=`, `#`, free of control bytes, and with valid
percent escapes. -/
def qkeyOK (k : GoStr) : Prop :=
  containsB k 38 = false ∧ containsB k 59 = false ∧ containsB k 61 = false ∧
    containsB k 35 = false ∧ containsCTLByte k = false ∧
    (unescape k .queryComponent).toOption.isSome = true

/-- A query value already percent-escaped for the wire (a literal `=` is
allowed in values: `strings.Cut` only splits at the first one). -/
def qvalOK (v : GoStr) : Prop :=
  containsB v 38 = false ∧ containsB v 59 = false ∧
    containsB v 35 = false ∧ containsCTLByte v = false ∧
    (unescape v .queryComponent).toOption.isSome = true

instance (k : GoStr) : Decidable (qkeyOK k) := by
  unfold qkeyOK
  infer_instance

instance (v : GoStr) : Decidable (qvalOK v) := by
  unfold qvalOK
  infer_instance

theorem parseQueryLoop_nil (m : List (GoStr × List GoStr)) :
    parseQueryLoop m [] = m := by
  rw [parseQueryLoop]
  simp

/-- One `&`-separated segment `k=v` of the parse loop: it is cut off, split
at the first `=`, both halves unescaped, and appended into the value map. -/
theorem parseQueryLoop_seg (m : List (GoStr × List GoStr)) (k v : GoStr)
    (hk : qkeyOK k) (hv : qvalOK v) :
    (∀ rest, parseQueryLoop m ((k ++ 61 :: v) ++ 38 :: rest) =
        parseQueryLoop (appendG m (qDec k) (qDec v)) rest) ∧
    parseQueryLoop m (k ++ 61 :: v) = appendG m (qDec k) (qDec v) := by
  obtain ⟨hk38, hk59, hk61, hk35, hkctl, hkesc⟩ := hk
  obtain ⟨hv38, hv59, hv35, hvctl, hvesc⟩ := hv
  obtain ⟨k1, hk1⟩ : ∃ x, unescape k .queryComponent = .ok x := by
    cases hx : unescape k .queryComponent with
    | ok x => exact ⟨x, rfl⟩
    | error e => rw [hx] at hkesc; simp [Except.toOption] at hkesc
  obtain ⟨v1, hv1⟩ : ∃ x, unescape v .queryComponent = .ok x := by
    cases hx : unescape v .queryComponent with
    | ok x => exact ⟨x, rfl⟩
    | error e => rw [hx] at hvesc; simp [Except.toOption] at hvesc
  have hqk : qDec k = k1 := by simp [qDec, hk1]
  have hqv : qDec v = v1 := by simp [qDec, hv1]
  have hseg38 : containsB (k ++ 61 :: v) 38 = false := by
    rw [containsB_append, containsB_cons, hk38, hv38]
    rfl
  have hseg59 : containsB (k ++ 61 :: v) 59 = false := by
    rw [containsB_append, containsB_cons, hk59, hv59]
    rfl
  have hsegne : k ++ 61 :: v ≠ [] := by simp
  have hcut61 : goCut (k ++ 61 :: v) 61 = (k, v, true) := goCut_split_first k 61 v hk61
  constructor
  · intro rest
    have hne : (k ++ 61 :: v) ++ 38 :: rest ≠ [] := by simp
    have hcut38 : goCut ((k ++ 61 :: v) ++ 38 :: rest) 38 = (k ++ 61 :: v, rest, true) :=
      goCut_split_first _ 38 rest hseg38
    rw [parseQueryLoop, dif_neg hne]
    simp only [hcut38]
    rw [if_neg (by rw [hseg59]; exact Bool.false_ne_true), if_neg hsegne]
    simp only [hcut61, hk1, hv1]
    rw [hqk, hqv]
  · have hcut38 : goCut (k ++ 61 :: v) 38 = (k ++ 61 :: v, [], false) :=
      goCut_not_found _ 38 hseg38
    rw [parseQueryLoop, dif_neg hsegne]
    simp only [hcut38]
    rw [if_neg (by rw [hseg59]; exact Bool.false_ne_true), if_neg hsegne]
    simp only [hcut61, hk1, hv1]
    rw [hqk, hqv, parseQueryLoop_nil]

/-- Parsing an `&`-join of well-formed `k=v` segments folds `appendG` over
the decoded pairs. -/
theorem parseQueryLoop_join (ps : List (GoStr × GoStr))
    (hps : ∀ kv ∈ ps, qkeyOK kv.1 ∧ qvalOK kv.2) (hne : ps ≠ []) :
    ∀ m, parseQueryLoop m (joinSep 38 (ps.map (fun kv => kv.1 ++ 61 :: kv.2))) =
      ps.foldl (fun m2 kv => appendG m2 (qDec kv.1) (qDec kv.2)) m := by
  induction ps with
  | nil => exact absurd rfl hne
  | cons p rest ih =>
    intro m
    obtain ⟨k, v⟩ := p
    have hp := hps (k, v) (List.mem_cons_self _ _)
    cases rest with
    | nil =>
      show parseQueryLoop m (joinSep 38 [k ++ 61 :: v]) = appendG m (qDec k) (qDec v)
      exact (parseQueryLoop_seg m k v hp.1 hp.2).2
    | cons p2 rest2 =>
      have hjoin : joinSep 38 (((k, v) :: p2 :: rest2).map (fun kv => kv.1 ++ 61 :: kv.2)) =
          (k ++ 61 :: v) ++ 38 ::
            joinSep 38 ((p2 :: rest2).map (fun kv => kv.1 ++ 61 :: kv.2)) := by
        simp [joinSep]
      rw [hjoin, (parseQueryLoop_seg m k v hp.1 hp.2).1, List.foldl_cons]
      exact ih (fun kv hm => hps kv (List.mem_cons_of_mem _ hm)) (by simp) _

theorem containsB_joinSep_false (sep b : Nat) (hsep : (sep = b) = False)
    (ss : List GoStr) (h : ∀ s ∈ ss, containsB s b = false) :
    containsB (joinSep sep ss) b = false := by
  induction ss with
  | nil => rfl
  | cons s ss ih =>
    cases ss with
    | nil => exact h s (List.mem_cons_self _ _)
    | cons s2 ss2 =>
      have hstep : joinSep sep (s :: s2 :: ss2) = s ++ sep :: joinSep sep (s2 :: ss2) := by
        simp [joinSep]
      rw [hstep, containsB_append, containsB_cons, h s (List.mem_cons_self _ _),
        ih (fun t ht => h t (List.mem_cons_of_mem _ ht))]
      simp [hsep]

theorem containsCTL_joinSep_false (sep : Nat)
    (hsep : decide (sep < 32 ∨ sep = 127) = false) (ss : List GoStr)
    (h : ∀ s ∈ ss, containsCTLByte s = false) :
    containsCTLByte (joinSep sep ss) = false := by
  induction ss with
  | nil => rfl
  | cons s ss ih =>
    cases ss with
    | nil => exact h s (List.mem_cons_self _ _)
    | cons s2 ss2 =>
      have hstep : joinSep sep (s :: s2 :: ss2) = s ++ sep :: joinSep sep (s2 :: ss2) := by
        simp [joinSep]
      rw [hstep, containsCTL_append, containsCTL_cons, h s (List.mem_cons_self _ _),
        ih (fun t ht => h t (List.mem_cons_of_mem _ ht)), hsep]
      rfl

/-- C6: for already-escaped non-empty query data, `buildURL` stores the
joined pairs verbatim as the raw query (no re-encoding), and reading the
query back decodes each key and value exactly once — an escaped `%20`
arrives as one literal space. -/
theorem query_roundtrip_decode_once (path : GoStr)
    (q : List (GoStr × List GoStr)) (hpath : pathOK path)
    (hne : flatPairs q ≠ [])
    (hkeys : ∀ kv ∈ flatPairs q, qkeyOK kv.1 ∧ qvalOK kv.2) :
    ∃ u, buildURL path q = .ok u ∧ u.RawQuery = queryJoin q ∧
      parseQueryGo u.RawQuery =
        groupPairs ((flatPairs q).map (fun kv => (qDec kv.1, qDec kv.2))) := by
  have hq : q ≠ [] := fun h => hne (by rw [h]; rfl)
  have hjoin := queryJoin_eq_joinSep q
  have hsegs35 : ∀ s ∈ (flatPairs q).map (fun kv => kv.1 ++ 61 :: kv.2),
      containsB s 35 = false := by
    intro s hs
    obtain ⟨kv, hkv, rfl⟩ := List.mem_map.mp hs
    obtain ⟨⟨_, _, _, hk35, _, _⟩, ⟨_, _, hv35, _, _⟩⟩ := hkeys kv hkv
    rw [containsB_append, containsB_cons, hk35, hv35]
    rfl
  have hsegsctl : ∀ s ∈ (flatPairs q).map (fun kv => kv.1 ++ 61 :: kv.2),
      containsCTLByte s = false := by
    intro s hs
    obtain ⟨kv, hkv, rfl⟩ := List.mem_map.mp hs
    obtain ⟨⟨_, _, _, _, hkctl, _⟩, ⟨_, _, _, hvctl, _⟩⟩ := hkeys kv hkv
    rw [containsCTL_append, containsCTL_cons, hkctl, hvctl]
    rfl
  have hq35 : containsB (queryJoin q) 35 = false := by
    rw [hjoin]
    exact containsB_joinSep_false 38 35 (by simp) _ hsegs35
  have hqctl : containsCTLByte (queryJoin q) = false := by
    rw [hjoin]
    exact containsCTL_joinSep_false 38 (by decide) _ hsegsctl
  have hqne : queryJoin q ≠ [] := by
    rw [hjoin]
    cases hfp : flatPairs q with
    | nil => exact absurd hfp hne
    | cons p ps =>
      rw [List.map_cons, joinSep_cons_eq]
      simp
  obtain ⟨u, hu, hrq, hfq⟩ := urlParse_path_query path (queryJoin q) hpath hqne hq35 hqctl
  have hbuild : buildURL path q = urlParse (path ++ 63 :: queryJoin q) := by
    unfold buildURL
    rw [if_neg (by simpa [List.length_eq_zero] using hq)]
  refine ⟨u, by rw [hbuild, hu], hrq, ?_⟩
  rw [hrq, hjoin]
  unfold parseQueryGo groupPairs
  rw [List.foldl_map]
  exact parseQueryLoop_join (flatPairs q) hkeys hne []

/-- C6 witness: the spec's example — an already-escaped `%20` decodes to one
literal space when read back. -/
theorem query_roundtrip_decode_once_witness :
    (pathOK (s2b "/search") ∧
      flatPairs [(s2b "q", [s2b "hello%20world"])] ≠ [] ∧
      (∀ kv ∈ flatPairs [(s2b "q", [s2b "hello%20world"])],
        qkeyOK kv.1 ∧ qvalOK kv.2) ∧
      qDec (s2b "hello%20world") = s2b "hello world") ∧
    ∃ u, buildURL (s2b "/search") [(s2b "q", [s2b "hello%20world"])] = .ok u ∧
      u.RawQuery = queryJoin [(s2b "q", [s2b "hello%20world"])] ∧
      parseQueryGo u.RawQuery =
        groupPairs ((flatPairs [(s2b "q", [s2b "hello%20world"])]).map
          (fun kv => (qDec kv.1, qDec kv.2))) :=
  ⟨⟨by decide, by decide, by decide, by decide⟩,
    query_roundtrip_decode_once (s2b "/search") [(s2b "q", [s2b "hello%20world"])]
      (by decide) (by decide) (by decide)⟩

end Alb
